import Mathlib

/-!
Shallow embedding of `src/app.py` (a Streamlit dashboard that fetches a
Google News RSS feed, parses headline titles, and calls a hosted LLM with a
retry loop), together with theorems settling the specification claims.

External effects are abstracted: the outcome of the generative-model call on
each attempt is a parameter `call : Nat → String → Except String String`
(attempt index and prompt to either an exception string or the response
text), and the parsed feed is a parameter `entries : List Entry`.
Everything else is translated from the Python source.
-/

namespace App

/-- Python `sub in s` (substring test), as a scan over the character list:
true iff `sep` occurs as a contiguous subsequence. -/
def containsSeq (sep : List Char) : List Char → Bool
  | [] => sep.isEmpty
  | c :: cs => sep.isPrefixOf (c :: cs) || containsSeq sep cs

/-- Python `sub in s` on strings. -/
def strContains (s sub : String) : Bool := containsSeq sub.data s.data

/-- Python `s.lower()` (character-wise; the model names involved are ASCII). -/
def pyLower (s : String) : String := ⟨s.data.map Char.toLower⟩

/-- Python `sep.join(parts)`. -/
def joinWith (sep : String) : List String → String
  | [] => ""
  | [a] => a
  | a :: b :: rest => a ++ sep ++ joinWith sep (b :: rest)

/-- Two-digit zero padding, as in `strftime` fields `%m %d %H %M`. -/
def pad2 (n : Nat) : String := if n < 10 then "0" ++ toString n else toString n

/- ### Core feature 0: `get_valid_model_name` (src/app.py:129-162) -/

/-- One model record returned by `genai.list_models()`: its name and the
generation methods it supports. -/
structure ModelInfo where
  name : String
  supported_generation_methods : List String
deriving DecidableEq

/-- The ordered preference list of src/app.py:139-144. -/
def preferences : List String :=
  ["models/gemini-1.5-flash", "models/gemini-1.5-pro",
   "models/gemini-1.0-pro", "models/gemini-pro"]

/-- The loop of src/app.py:134-137: names of the listed models supporting
`generateContent`, in listing order. -/
def validModels (ms : List ModelInfo) : List String :=
  (ms.filter
    (fun m => m.supported_generation_methods.contains "generateContent")).map
    (fun m => m.name)

/-- src/app.py:129-162. `listing` is the outcome of `genai.list_models()`:
an exception string, or the listed models. Returns `none` exactly on the
early `return None` when no API key is configured. -/
def get_valid_model_name (api_key : Bool) (listing : Except String (List ModelInfo)) :
    Option String :=
  if api_key = false then none
  else
    match listing with
    | .error _ => some "models/gemini-1.5-flash"
    | .ok ms =>
      let valid_models := validModels ms
      match preferences.find? (fun pref => valid_models.contains pref) with
      | some pref => some pref
      | none =>
        match valid_models.find?
            (fun m => strContains (pyLower m) "flash" && !strContains (pyLower m) "exp") with
        | some m => some m
        | none =>
          match valid_models.find?
              (fun m => strContains (pyLower m) "pro" && !strContains (pyLower m) "exp") with
          | some m => some m
          | none => some "models/gemini-1.5-flash"

/- ### Core feature 1: `get_six_capital_news` (src/app.py:166-197) -/

/-- One RSS entry as used by the code: `entry.title`, `entry.link`, and
`entry.published_parsed` (year, month, day, hour, minute, second when
present). -/
structure Entry where
  title : String
  link : String
  published : Option (Nat × Nat × Nat × Nat × Nat × Nat)

/-- `datetime(*published[:6]).strftime('%m/%d %H:%M')` (src/app.py:180). -/
def fmtDate : Nat × Nat × Nat × Nat × Nat × Nat → String
  | (_, mo, d, h, mi, _) => pad2 mo ++ "/" ++ pad2 d ++ " " ++ pad2 h ++ ":" ++ pad2 mi

/-- Indices at which `sep` occurs in `s` (ascending). -/
def occIdxs (sep s : List Char) : List Nat :=
  (List.range (s.length + 1)).filter (fun i => sep.isPrefixOf (s.drop i))

/-- Python `s.rsplit(sep, 1)` restricted to the case where `sep` occurs:
split at the last occurrence. `none` when `sep` does not occur. -/
def rsplitLast (sep s : List Char) : Option (List Char × List Char) :=
  match (occIdxs sep s).getLast? with
  | some i => some (s.take i, s.drop (i + sep.length))
  | none => none

/-- src/app.py:184-188: `title.rsplit(" - ", 1)` when `" - " in title`,
otherwise the title unchanged with source `"新聞媒體"`. The `none` branch of
`rsplitLast` is unreachable under the guard. -/
def processTitle (title : String) : String × String :=
  if strContains title " - " then
    match rsplitLast (" - ").data title.data with
    | some (b, a) => (⟨b⟩, ⟨a⟩)
    | none => ("", "")
  else (title, "新聞媒體")

/-- The loop body of src/app.py:174-195: one entry to one appended dict,
represented as a key-value list. -/
def processEntry (e : Entry) : List (String × String) :=
  let pub_date :=
    match e.published with
    | some p => fmtDate p
    | none => "最新"
  let ts := processTitle e.title
  [("title", ts.1), ("link", e.link), ("source", ts.2), ("date", pub_date)]

/-- src/app.py:166-197: the first at-most-10 feed entries, each turned into
a news-item dict. -/
def get_six_capital_news (entries : List Entry) : List (List (String × String)) :=
  (entries.take 10).map processEntry

/- ### Core feature 2: `analyze_with_ai` (src/app.py:201-232) -/

/-- The f-string prompt of src/app.py:205-212 with the headline spliced in. -/
def analysisPrompt (news_title : String) : String :=
  "\n    你是一位專業的台灣房地產分析師。請針對以下新聞標題進行分析：\n    新聞標題：「" ++
  news_title ++
  "」\n    \n    請簡潔分析（各約100字）：\n    1. **【產業觀點】**：對市場的影響或趨勢。\n    2. **【受眾畫像】**：誰會對這則新聞最有感？\n    "

/-- The retry loop of src/app.py:214-232. `call attempt` is the outcome of
`model.generate_content(prompt)` on that attempt (the `time.sleep` calls have
no effect on the returned value and are not modelled). Falling out of the
`for` loop reaches the final `return "⚠️ 未知錯誤"`. -/
def analyzeLoop (call : Nat → Except String String) (max_retries attempt : Nat) : String :=
  if _h : attempt < max_retries then
    match call attempt with
    | .ok text => text
    | .error e =>
      if strContains e "429" = true ∧ attempt < max_retries - 1 then
        analyzeLoop call max_retries (attempt + 1)
      else if attempt = max_retries - 1 then
        if strContains e "429" then "⚠️ AI 分析忙碌中 (流量限制)，請稍後再試。"
        else "⚠️ 分析失敗 (" ++ e ++ ")"
      else analyzeLoop call max_retries (attempt + 1)
  else "⚠️ 未知錯誤"
termination_by max_retries - attempt
decreasing_by all_goals omega

/-- src/app.py:201-232. `call attempt prompt` abstracts the generative call. -/
def analyze_with_ai (api_key : Bool) (news_title : String)
    (call : Nat → String → Except String String) : String :=
  if api_key = false then "無法分析 (缺少 API Key)"
  else analyzeLoop (fun k => call k (analysisPrompt news_title)) 3 0

/- ### Core feature 3: `generate_marketing_summary` (src/app.py:236-275) -/

/-- src/app.py:241: `"\n".join([f"- {t}" for t in all_titles])`. -/
def titlesText (all_titles : List String) : String :=
  joinWith "\n" (all_titles.map (fun t => "- " ++ t))

/-- Text of the f-string prompt (src/app.py:243-258) before `{titles_text}`. -/
def mpPre : String :=
  "\n    你是一位資深的數位行銷顧問，專精於房地產廣告投放。\n    請閱讀以下今日的熱門房地產新聞標題：\n    "

/-- Text of the f-string prompt (src/app.py:243-258) after `{titles_text}`. -/
def mpPost : String :=
  "\n\n    請根據這些新聞內容，彙整出一份「今日廣告投放策略建議表」。\n    請將建議詳細分為六個區域（六都）：「台北市」、「新北市」、「桃園市」、「台中市」、「台南市」、「高雄市」。\n    如果新聞內容沒有特定區域，請根據其屬性歸類到最適合的區域，或列為「全台通用」。\n\n    請直接輸出一個 Markdown 格式的表格 (不要使用 HTML 標籤，也不要包含任何開場白或結語)。\n    表格欄位必須包含：\n    1. **六都區域**\n    2. **Google廣告關鍵字建議** (3-5組)\n    3. **Google聯播網受眾建議** (具體描述)\n    4. **FB廣告受眾建議** (具體描述)\n    "

/-- The single batch prompt sent by `generate_marketing_summary`. -/
def marketingPrompt (all_titles : List String) : String :=
  mpPre ++ titlesText all_titles ++ mpPost

/-- The retry loop of src/app.py:260-275. -/
def generateLoop (call : Nat → Except String String) (max_retries attempt : Nat) : String :=
  if _h : attempt < max_retries then
    match call attempt with
    | .ok text => text
    | .error e =>
      if strContains e "429" = true ∧ attempt < max_retries - 1 then
        generateLoop call max_retries (attempt + 1)
      else if attempt = max_retries - 1 then
        "⚠️ 總結生成失敗: " ++ e
      else generateLoop call max_retries (attempt + 1)
  else "⚠️ 無法生成總結"
termination_by max_retries - attempt
decreasing_by all_goals omega

/-- src/app.py:236-275. -/
def generate_marketing_summary (api_key : Bool) (all_titles : List String)
    (call : Nat → String → Except String String) : String :=
  if api_key = false then "無法生成總結"
  else generateLoop (fun k => call k (marketingPrompt all_titles)) 3 0

/- ### Specification-side characterisations -/

/-- `x` is the first element of `l` satisfying `P`: `P` holds at `x` and at
no element before it. -/
def FirstWith {α : Type} (P : α → Prop) (l : List α) (x : α) : Prop :=
  ∃ l₁ l₂, l = l₁ ++ x :: l₂ ∧ P x ∧ ∀ y ∈ l₁, ¬ P y

/-- The lowercased name contains "flash" but not "exp" (src/app.py:151). -/
def IsFlashNonExp (m : String) : Prop :=
  strContains (pyLower m) "flash" = true ∧ strContains (pyLower m) "exp" = false

/-- The lowercased name contains "pro" but not "exp" (src/app.py:155). -/
def IsProNonExp (m : String) : Prop :=
  strContains (pyLower m) "pro" = true ∧ strContains (pyLower m) "exp" = false

/-- Closed form of the `analyze_with_ai` retry loop: a total case analysis
over the three attempt outcomes, with no fall-through case. -/
def analyzeSpec (call : Nat → Except String String) : String :=
  match call 0 with
  | .ok t => t
  | .error _ =>
    match call 1 with
    | .ok t => t
    | .error _ =>
      match call 2 with
      | .ok t => t
      | .error e =>
        if strContains e "429" then "⚠️ AI 分析忙碌中 (流量限制)，請稍後再試。"
        else "⚠️ 分析失敗 (" ++ e ++ ")"

/-- Closed form of the `generate_marketing_summary` retry loop. -/
def generateSpec (call : Nat → Except String String) : String :=
  match call 0 with
  | .ok t => t
  | .error _ =>
    match call 1 with
    | .ok t => t
    | .error _ =>
      match call 2 with
      | .ok t => t
      | .error e => "⚠️ 總結生成失敗: " ++ e

/-- Split a character list at newline characters (independent
characterisation used to state what joining with newlines produces). -/
def splitOnNl : List Char → List (List Char)
  | [] => [[]]
  | c :: cs =>
    if c = '\n' then [] :: splitOnNl cs
    else
      match splitOnNl cs with
      | [] => [[c]]
      | r :: rs => (c :: r) :: rs

/- ### Lemmas about the retry loops -/

theorem analyzeLoop_ok (c : Nat → Except String String) (k : Nat) (t : String)
    (hk : k < 3) (hc : c k = .ok t) : analyzeLoop c 3 k = t := by
  rw [analyzeLoop]
  simp [hk, hc]

theorem analyzeLoop_next (c : Nat → Except String String) (k : Nat) (e : String)
    (hk : k < 2) (hc : c k = .error e) : analyzeLoop c 3 k = analyzeLoop c 3 (k + 1) := by
  rw [analyzeLoop]
  have hk3 : k < 3 := by omega
  have hne : k ≠ 2 := by omega
  by_cases h429 : strContains e "429" = true
  · simp [hk3, hc, h429, hk, hne]
  · simp [hk3, hc, h429, hne]

theorem analyzeLoop_last (c : Nat → Except String String) (e : String)
    (hc : c 2 = .error e) :
    analyzeLoop c 3 2 =
      if strContains e "429" = true then "⚠️ AI 分析忙碌中 (流量限制)，請稍後再試。"
      else "⚠️ 分析失敗 (" ++ e ++ ")" := by
  rw [analyzeLoop]
  simp [hc]

theorem analyzeLoop_eq_spec (c : Nat → Except String String) :
    analyzeLoop c 3 0 = analyzeSpec c := by
  unfold analyzeSpec
  cases h0 : c 0 with
  | ok t => exact analyzeLoop_ok c 0 t (by omega) h0
  | error e0 =>
    rw [analyzeLoop_next c 0 e0 (by omega) h0]
    cases h1 : c 1 with
    | ok t => exact analyzeLoop_ok c 1 t (by omega) h1
    | error e1 =>
      rw [analyzeLoop_next c 1 e1 (by omega) h1]
      cases h2 : c 2 with
      | ok t => exact analyzeLoop_ok c 2 t (by omega) h2
      | error e2 => exact analyzeLoop_last c e2 h2

theorem generateLoop_ok (c : Nat → Except String String) (k : Nat) (t : String)
    (hk : k < 3) (hc : c k = .ok t) : generateLoop c 3 k = t := by
  rw [generateLoop]
  simp [hk, hc]

theorem generateLoop_next (c : Nat → Except String String) (k : Nat) (e : String)
    (hk : k < 2) (hc : c k = .error e) : generateLoop c 3 k = generateLoop c 3 (k + 1) := by
  rw [generateLoop]
  have hk3 : k < 3 := by omega
  have hne : k ≠ 2 := by omega
  by_cases h429 : strContains e "429" = true
  · simp [hk3, hc, h429, hk, hne]
  · simp [hk3, hc, h429, hne]

theorem generateLoop_last (c : Nat → Except String String) (e : String)
    (hc : c 2 = .error e) : generateLoop c 3 2 = "⚠️ 總結生成失敗: " ++ e := by
  rw [generateLoop]
  simp [hc]

theorem generateLoop_eq_spec (c : Nat → Except String String) :
    generateLoop c 3 0 = generateSpec c := by
  unfold generateSpec
  cases h0 : c 0 with
  | ok t => exact generateLoop_ok c 0 t (by omega) h0
  | error e0 =>
    rw [generateLoop_next c 0 e0 (by omega) h0]
    cases h1 : c 1 with
    | ok t => exact generateLoop_ok c 1 t (by omega) h1
    | error e1 =>
      rw [generateLoop_next c 1 e1 (by omega) h1]
      cases h2 : c 2 with
      | ok t => exact generateLoop_ok c 2 t (by omega) h2
      | error e2 => exact generateLoop_last c e2 h2

/- ### Lemmas about substring search and splitting -/

theorem isPrefixOf_nil_false {sep : List Char} (h : sep ≠ []) :
    sep.isPrefixOf ([] : List Char) = false := by
  cases sep with
  | nil => exact absurd rfl h
  | cons a as => rfl

theorem containsSeq_iff (sep s : List Char) :
    containsSeq sep s = true ↔ ∃ i, i ≤ s.length ∧ sep.isPrefixOf (s.drop i) = true := by
  induction s with
  | nil =>
    constructor
    · intro h
      refine ⟨0, Nat.le_refl _, ?_⟩
      cases sep with
      | nil => rfl
      | cons a as => simp [containsSeq] at h
    · rintro ⟨i, hi, hp⟩
      cases sep with
      | nil => rfl
      | cons a as =>
        rw [List.drop_nil] at hp
        simp [List.isPrefixOf] at hp
  | cons c cs ih =>
    simp only [containsSeq, Bool.or_eq_true, ih]
    constructor
    · rintro (h | ⟨i, hi, hp⟩)
      · exact ⟨0, Nat.zero_le _, h⟩
      · exact ⟨i + 1, by simpa using hi, by simpa using hp⟩
    · rintro ⟨i, hi, hp⟩
      cases i with
      | zero => exact Or.inl hp
      | succ j =>
        right
        exact ⟨j, by simpa using hi, by simpa using hp⟩

theorem mem_occIdxs (sep s : List Char) (i : Nat) :
    i ∈ occIdxs sep s ↔ i ≤ s.length ∧ sep.isPrefixOf (s.drop i) = true := by
  simp [occIdxs, List.mem_filter, List.mem_range, Nat.lt_succ_iff]

theorem occIdxs_pairwise (sep s : List Char) : (occIdxs sep s).Pairwise (· < ·) :=
  List.Pairwise.sublist (List.filter_sublist _) (List.pairwise_lt_range _)

theorem getLast?_max {l : List Nat} {x : Nat} (hp : l.Pairwise (· < ·))
    (hl : l.getLast? = some x) : ∀ j ∈ l, j ≤ x := by
  obtain ⟨ys, rfl⟩ := List.getLast?_eq_some_iff.mp hl
  intro j hj
  rcases List.mem_append.mp hj with h | h
  · have := (List.pairwise_append.mp hp).2.2 j h x (by simp)
    omega
  · simp at h
    omega

theorem rsplitLast_spec (sep s : List Char) (hsep : sep ≠ [])
    (hocc : containsSeq sep s = true) :
    ∃ b a, rsplitLast sep s = some (b, a) ∧ b.length ≤ s.length ∧
      b ++ sep ++ a = s ∧
      ∀ j, b.length < j → sep.isPrefixOf (s.drop j) = false := by
  obtain ⟨i, hi, hp⟩ := (containsSeq_iff sep s).mp hocc
  have hmem : i ∈ occIdxs sep s := (mem_occIdxs sep s i).mpr ⟨hi, hp⟩
  obtain ⟨m, hm⟩ : ∃ m, (occIdxs sep s).getLast? = some m := by
    cases hg : (occIdxs sep s).getLast? with
    | some m => exact ⟨m, rfl⟩
    | none =>
      rw [List.getLast?_eq_none_iff] at hg
      rw [hg] at hmem
      simp at hmem
  have hmmem : m ∈ occIdxs sep s := by
    obtain ⟨ys, hys⟩ := List.getLast?_eq_some_iff.mp hm
    rw [hys]
    simp
  obtain ⟨hmle, hmp⟩ := (mem_occIdxs sep s m).mp hmmem
  have hblen : (s.take m).length = m := by
    rw [List.length_take]
    omega
  refine ⟨s.take m, s.drop (m + sep.length), ?_, ?_, ?_, ?_⟩
  · simp [rsplitLast, hm]
  · omega
  · obtain ⟨t, ht⟩ := List.isPrefixOf_iff_prefix.mp hmp
    have hdt : s.drop (m + sep.length) = t := by
      have h1 : List.drop sep.length (List.drop m s) = t := by
        rw [← ht]
        exact List.drop_left sep t
      rw [List.drop_drop] at h1
      exact h1
    rw [hdt, List.append_assoc, ht, List.take_append_drop]
  · intro j hj
    rw [hblen] at hj
    by_contra hcon
    have hjp : sep.isPrefixOf (s.drop j) = true := by
      cases h : sep.isPrefixOf (s.drop j) with
      | true => rfl
      | false => exact absurd h hcon
    have hjlen : j ≤ s.length := by
      by_contra hgt
      have : s.drop j = [] := List.drop_eq_nil_of_le (by omega)
      rw [this, isPrefixOf_nil_false hsep] at hjp
      exact Bool.false_ne_true hjp
    have hjmem : j ∈ occIdxs sep s := (mem_occIdxs sep s j).mpr ⟨hjlen, hjp⟩
    have := getLast?_max (occIdxs_pairwise sep s) hm j hjmem
    omega

theorem find?_first {α : Type} {p : α → Bool} (l₁ l₂ : List α) (x : α)
    (hx : p x = true) (hprev : ∀ y ∈ l₁, p y = false) :
    (l₁ ++ x :: l₂).find? p = some x := by
  induction l₁ with
  | nil => simp [List.find?_cons_of_pos, hx]
  | cons a as ih =>
    have ha : p a = false := hprev a (by simp)
    rw [List.cons_append, List.find?_cons_of_neg _ (by simp [ha])]
    exact ih (fun y hy => hprev y (by simp [hy]))

theorem splitOnNl_no_nl {l : List Char} (h : '\n' ∉ l) : splitOnNl l = [l] := by
  induction l with
  | nil => rfl
  | cons c cs ih =>
    have hc : ¬ c = '\n' := fun he => h (he ▸ List.mem_cons_self c cs)
    have hcs : '\n' ∉ cs := fun hm => h (List.mem_cons_of_mem c hm)
    rw [splitOnNl, if_neg hc, ih hcs]

theorem splitOnNl_append {l rest : List Char} (h : '\n' ∉ l) :
    splitOnNl (l ++ '\n' :: rest) = l :: splitOnNl rest := by
  induction l with
  | nil => simp [splitOnNl]
  | cons c cs ih =>
    have hc : ¬ c = '\n' := fun he => h (he ▸ List.mem_cons_self c cs)
    have hcs : '\n' ∉ cs := fun hm => h (List.mem_cons_of_mem c hm)
    rw [List.cons_append, splitOnNl, if_neg hc, ih hcs]

theorem splitOnNl_joinWith : ∀ (L : List String), L ≠ [] →
    (∀ s ∈ L, '\n' ∉ s.data) →
    splitOnNl (joinWith "\n" L).data = L.map String.data
  | [], h, _ => absurd rfl h
  | [a], _, hn => by
    rw [joinWith, splitOnNl_no_nl (hn a (by simp))]
    rfl
  | a :: b :: rest, _, hn => by
    have hdata : (joinWith "\n" (a :: b :: rest)).data
        = a.data ++ '\n' :: (joinWith "\n" (b :: rest)).data := by
      rw [joinWith, String.data_append, String.data_append, List.append_assoc]
      rfl
    rw [hdata, splitOnNl_append (hn a (by simp)),
      splitOnNl_joinWith (b :: rest) (by simp) (fun s hs => hn s (by simp [hs]))]
    rfl

theorem ne_of_length_ne {s t : String} (h : s.length ≠ t.length) : s ≠ t :=
  fun he => h (he ▸ rfl)

theorem analyze_with_ai_true (news_title : String)
    (call : Nat → String → Except String String) :
    analyze_with_ai true news_title call =
      analyzeSpec (fun k => call k (analysisPrompt news_title)) := by
  unfold analyze_with_ai
  rw [if_neg (by simp)]
  exact analyzeLoop_eq_spec _

theorem generate_marketing_summary_true (all_titles : List String)
    (call : Nat → String → Except String String) :
    generate_marketing_summary true all_titles call =
      generateSpec (fun k => call k (marketingPrompt all_titles)) := by
  unfold generate_marketing_summary
  rw [if_neg (by simp)]
  exact generateLoop_eq_spec _

theorem analyzeSpec_congr (c c' : Nat → Except String String)
    (h0 : c 0 = c' 0) (h1 : c 1 = c' 1) (h2 : c 2 = c' 2) :
    analyzeSpec c = analyzeSpec c' := by
  unfold analyzeSpec
  rw [h0, h1, h2]

theorem generateSpec_congr (c c' : Nat → Except String String)
    (h0 : c 0 = c' 0) (h1 : c 1 = c' 1) (h2 : c 2 = c' 2) :
    generateSpec c = generateSpec c' := by
  unfold generateSpec
  rw [h0, h1, h2]

theorem analyzeSpec_ne (c : Nat → Except String String)
    (hok : ∀ k t, c k = .ok t → t ≠ "⚠️ 未知錯誤") : analyzeSpec c ≠ "⚠️ 未知錯誤" := by
  rw [← analyzeLoop_eq_spec]
  cases h0 : c 0 with
  | ok t =>
    rw [analyzeLoop_ok c 0 t (by omega) h0]
    exact hok 0 t h0
  | error e0 =>
    rw [analyzeLoop_next c 0 e0 (by omega) h0]
    cases h1 : c 1 with
    | ok t =>
      rw [analyzeLoop_ok c 1 t (by omega) h1]
      exact hok 1 t h1
    | error e1 =>
      rw [analyzeLoop_next c 1 e1 (by omega) h1]
      cases h2 : c 2 with
      | ok t =>
        rw [analyzeLoop_ok c 2 t (by omega) h2]
        exact hok 2 t h2
      | error e2 =>
        rw [analyzeLoop_last c e2 h2]
        by_cases h429 : strContains e2 "429" = true
        · rw [if_pos h429]
          decide
        · rw [if_neg h429]
          apply ne_of_length_ne
          rw [String.length_append, String.length_append]
          have hx : ("⚠️ 分析失敗 (" : String).length = 9 := rfl
          have hy : (")" : String).length = 1 := rfl
          have hz : ("⚠️ 未知錯誤" : String).length = 7 := rfl
          omega

theorem generateSpec_ne (c : Nat → Except String String)
    (hok : ∀ k t, c k = .ok t → t ≠ "⚠️ 無法生成總結") :
    generateSpec c ≠ "⚠️ 無法生成總結" := by
  rw [← generateLoop_eq_spec]
  cases h0 : c 0 with
  | ok t =>
    rw [generateLoop_ok c 0 t (by omega) h0]
    exact hok 0 t h0
  | error e0 =>
    rw [generateLoop_next c 0 e0 (by omega) h0]
    cases h1 : c 1 with
    | ok t =>
      rw [generateLoop_ok c 1 t (by omega) h1]
      exact hok 1 t h1
    | error e1 =>
      rw [generateLoop_next c 1 e1 (by omega) h1]
      cases h2 : c 2 with
      | ok t =>
        rw [generateLoop_ok c 2 t (by omega) h2]
        exact hok 2 t h2
      | error e2 =>
        rw [generateLoop_last c e2 h2]
        apply ne_of_length_ne
        rw [String.length_append]
        have hx : ("⚠️ 總結生成失敗: " : String).length = 11 := rfl
        have hz : ("⚠️ 無法生成總結" : String).length = 9 := rfl
        omega

/- ### Claim theorems -/

/-- C5: when no API key is configured, `analyze_with_ai` returns the constant
"無法分析 (缺少 API Key)" and `generate_marketing_summary` returns the constant
"無法生成總結", in both cases without making any call to the generative-text
API (the result does not depend on the call outcomes at all). -/
theorem claim_C5 (news_title : String) (all_titles : List String)
    (call call₂ : Nat → String → Except String String) :
    analyze_with_ai false news_title call = "無法分析 (缺少 API Key)" ∧
    generate_marketing_summary false all_titles call = "無法生成總結" ∧
    analyze_with_ai false news_title call = analyze_with_ai false news_title call₂ ∧
    generate_marketing_summary false all_titles call =
      generate_marketing_summary false all_titles call₂ :=
  ⟨rfl, rfl, rfl, rfl⟩

/-- C9: the final fallback returns after the retry loops are unreachable:
with an API key, both functions are equal to a total case analysis over the
three attempt outcomes (`analyzeSpec` / `generateSpec`) whose cases are the
model's response text and the explicit error-branch strings only, with no
fall-through case.  In particular, unless some response text is literally the
fallback string, `analyze_with_ai` never returns "⚠️ 未知錯誤" and
`generate_marketing_summary` never returns "⚠️ 無法生成總結" with the ⚠️
prefix. -/
theorem claim_C9 (news_title : String) (all_titles : List String)
    (call : Nat → String → Except String String) :
    analyze_with_ai true news_title call =
      analyzeSpec (fun k => call k (analysisPrompt news_title)) ∧
    generate_marketing_summary true all_titles call =
      generateSpec (fun k => call k (marketingPrompt all_titles)) ∧
    ((∀ k t, call k (analysisPrompt news_title) = .ok t → t ≠ "⚠️ 未知錯誤") →
      analyze_with_ai true news_title call ≠ "⚠️ 未知錯誤") ∧
    ((∀ k t, call k (marketingPrompt all_titles) = .ok t → t ≠ "⚠️ 無法生成總結") →
      generate_marketing_summary true all_titles call ≠ "⚠️ 無法生成總結") := by
  refine ⟨analyze_with_ai_true news_title call,
    generate_marketing_summary_true all_titles call, ?_, ?_⟩
  · intro hok
    rw [analyze_with_ai_true]
    exact analyzeSpec_ne _ (fun k t h => hok k t h)
  · intro hok
    rw [generate_marketing_summary_true]
    exact generateSpec_ne _ (fun k t h => hok k t h)

/-- C9 witness: with a call that always fails with a non-429 error, the
analysis result is the explicit failure string, not the fallback. -/
theorem claim_C9_witness :
    analyze_with_ai true "北市房市" (fun _ _ => .error "boom") ≠ "⚠️ 未知錯誤" :=
  (claim_C9 "北市房市" ["x"] (fun _ _ => .error "boom")).2.2.1
    (fun _ t h => absurd h (by simp))

/-- C2: both retry loops attempt the call at most 3 times (the result depends
only on the outcomes of attempts 0, 1, 2); a 429 failure on a non-final
attempt retries; a failure on the final attempt yields an error string rather
than propagating; the first successful call's response text is returned. -/
theorem claim_C2 (news_title : String) (all_titles : List String)
    (call : Nat → String → Except String String) :
    (∀ call₂ : Nat → String → Except String String,
       (∀ k, k < 3 → ∀ p, call k p = call₂ k p) →
       analyze_with_ai true news_title call = analyze_with_ai true news_title call₂ ∧
       generate_marketing_summary true all_titles call =
         generate_marketing_summary true all_titles call₂) ∧
    (∀ k t, k < 3 → call k (analysisPrompt news_title) = .ok t →
       (∀ j, j < k → ∃ e, call j (analysisPrompt news_title) = .error e) →
       analyze_with_ai true news_title call = t) ∧
    (∀ k t, k < 3 → call k (marketingPrompt all_titles) = .ok t →
       (∀ j, j < k → ∃ e, call j (marketingPrompt all_titles) = .error e) →
       generate_marketing_summary true all_titles call = t) ∧
    (∀ k e, k < 2 → call k (analysisPrompt news_title) = .error e →
       strContains e "429" = true →
       analyzeLoop (fun j => call j (analysisPrompt news_title)) 3 k =
         analyzeLoop (fun j => call j (analysisPrompt news_title)) 3 (k + 1)) ∧
    (∀ k e, k < 2 → call k (marketingPrompt all_titles) = .error e →
       strContains e "429" = true →
       generateLoop (fun j => call j (marketingPrompt all_titles)) 3 k =
         generateLoop (fun j => call j (marketingPrompt all_titles)) 3 (k + 1)) ∧
    (∀ e0 e1 e2, call 0 (analysisPrompt news_title) = .error e0 →
       call 1 (analysisPrompt news_title) = .error e1 →
       call 2 (analysisPrompt news_title) = .error e2 →
       analyze_with_ai true news_title call =
         if strContains e2 "429" = true then "⚠️ AI 分析忙碌中 (流量限制)，請稍後再試。"
         else "⚠️ 分析失敗 (" ++ e2 ++ ")") ∧
    (∀ e0 e1 e2, call 0 (marketingPrompt all_titles) = .error e0 →
       call 1 (marketingPrompt all_titles) = .error e1 →
       call 2 (marketingPrompt all_titles) = .error e2 →
       generate_marketing_summary true all_titles call = "⚠️ 總結生成失敗: " ++ e2) := by
  refine ⟨?_, ?_, ?_, ?_, ?_, ?_, ?_⟩
  · intro call₂ h
    constructor
    · rw [analyze_with_ai_true, analyze_with_ai_true]
      exact analyzeSpec_congr _ _ (h 0 (by omega) _) (h 1 (by omega) _) (h 2 (by omega) _)
    · rw [generate_marketing_summary_true, generate_marketing_summary_true]
      exact generateSpec_congr _ _ (h 0 (by omega) _) (h 1 (by omega) _) (h 2 (by omega) _)
  · intro k t hk hok hprev
    rw [analyze_with_ai_true]
    unfold analyzeSpec
    match k, hk with
    | 0, _ => simp [hok]
    | 1, _ =>
      obtain ⟨e0, he0⟩ := hprev 0 (by omega)
      simp [he0, hok]
    | 2, _ =>
      obtain ⟨e0, he0⟩ := hprev 0 (by omega)
      obtain ⟨e1, he1⟩ := hprev 1 (by omega)
      simp [he0, he1, hok]
  · intro k t hk hok hprev
    rw [generate_marketing_summary_true]
    unfold generateSpec
    match k, hk with
    | 0, _ => simp [hok]
    | 1, _ =>
      obtain ⟨e0, he0⟩ := hprev 0 (by omega)
      simp [he0, hok]
    | 2, _ =>
      obtain ⟨e0, he0⟩ := hprev 0 (by omega)
      obtain ⟨e1, he1⟩ := hprev 1 (by omega)
      simp [he0, he1, hok]
  · intro k e hk he _h429
    exact analyzeLoop_next _ k e hk he
  · intro k e hk he _h429
    exact generateLoop_next _ k e hk he
  · intro e0 e1 e2 h0 h1 h2
    rw [analyze_with_ai_true]
    unfold analyzeSpec
    simp [h0, h1, h2]
  · intro e0 e1 e2 h0 h1 h2
    rw [generate_marketing_summary_true]
    unfold generateSpec
    simp [h0, h1, h2]

/-- C2 witness: a call that always fails with a 429 error makes the analysis
return the rate-limit message and the summary return the failure message. -/
theorem claim_C2_witness :
    analyze_with_ai true "桃園重劃區" (fun _ _ => .error "429 Too Many Requests") =
      "⚠️ AI 分析忙碌中 (流量限制)，請稍後再試。" ∧
    generate_marketing_summary true ["桃園重劃區"] (fun _ _ => .error "429 Too Many Requests") =
      "⚠️ 總結生成失敗: 429 Too Many Requests" := by
  have h := claim_C2 "桃園重劃區" ["桃園重劃區"] (fun _ _ => .error "429 Too Many Requests")
  constructor
  · have ha := h.2.2.2.2.2.1 "429 Too Many Requests" "429 Too Many Requests"
      "429 Too Many Requests" rfl rfl rfl
    rw [ha, if_pos (by decide)]
  · exact h.2.2.2.2.2.2 "429 Too Many Requests" "429 Too Many Requests"
      "429 Too Many Requests" rfl rfl rfl

theorem get_valid_model_name_ok_eq (ms : List ModelInfo) :
    get_valid_model_name true (.ok ms) =
      (match preferences.find? (fun pref => (validModels ms).contains pref) with
       | some pref => some pref
       | none =>
         match (validModels ms).find?
             (fun m => strContains (pyLower m) "flash" && !strContains (pyLower m) "exp") with
         | some m => some m
         | none =>
           match (validModels ms).find?
               (fun m => strContains (pyLower m) "pro" && !strContains (pyLower m) "exp") with
           | some m => some m
           | none => some "models/gemini-1.5-flash") := rfl

/-- C1: with an API key and a successful model listing, `get_valid_model_name`
returns the first preference occurring among the listed models supporting
generateContent; failing that, the first such model whose lowercased name
contains "flash" but not "exp"; failing that, the first whose lowercased name
contains "pro" but not "exp"; failing that, the constant
"models/gemini-1.5-flash". -/
theorem claim_C1 (ms : List ModelInfo) :
    (∀ p, FirstWith (fun q => q ∈ validModels ms) preferences p →
       get_valid_model_name true (.ok ms) = some p) ∧
    ((∀ p ∈ preferences, p ∉ validModels ms) →
      (∀ m, FirstWith IsFlashNonExp (validModels ms) m →
         get_valid_model_name true (.ok ms) = some m) ∧
      ((∀ m ∈ validModels ms, ¬ IsFlashNonExp m) →
        (∀ m, FirstWith IsProNonExp (validModels ms) m →
           get_valid_model_name true (.ok ms) = some m) ∧
        ((∀ m ∈ validModels ms, ¬ IsProNonExp m) →
          get_valid_model_name true (.ok ms) = some "models/gemini-1.5-flash"))) := by
  have hbridge : ∀ q : String, ((validModels ms).contains q = true) ↔ q ∈ validModels ms :=
    fun q => List.elem_iff
  constructor
  · rintro p ⟨l₁, l₂, heq, hx, hprev⟩
    have hf : preferences.find? (fun pref => (validModels ms).contains pref) = some p := by
      rw [heq]
      refine find?_first l₁ l₂ p ((hbridge p).mpr hx) ?_
      intro y hy
      cases hcy : (validModels ms).contains y with
      | false => rfl
      | true => exact absurd ((hbridge y).mp hcy) (hprev y hy)
    rw [get_valid_model_name_ok_eq, hf]
  · intro hnp
    have hf1 : preferences.find? (fun pref => (validModels ms).contains pref) = none := by
      rw [List.find?_eq_none]
      intro q hq hc
      exact hnp q hq ((hbridge q).mp hc)
    constructor
    · rintro m ⟨l₁, l₂, heq, hx, hprev⟩
      have hf2 : (validModels ms).find?
          (fun x => strContains (pyLower x) "flash" && !strContains (pyLower x) "exp")
          = some m := by
        rw [heq]
        refine find?_first l₁ l₂ m ?_ ?_
        · obtain ⟨h1, h2⟩ := hx
          simp [h1, h2]
        · intro y hy
          cases hcy : (strContains (pyLower y) "flash" && !strContains (pyLower y) "exp") with
          | false => rfl
          | true =>
            rw [Bool.and_eq_true, Bool.not_eq_true'] at hcy
            exact absurd hcy (hprev y hy)
      rw [get_valid_model_name_ok_eq, hf1, hf2]
    · intro hnf
      have hf2 : (validModels ms).find?
          (fun x => strContains (pyLower x) "flash" && !strContains (pyLower x) "exp")
          = none := by
        rw [List.find?_eq_none]
        intro y hy hc
        rw [Bool.and_eq_true, Bool.not_eq_true'] at hc
        exact hnf y hy hc
      constructor
      · rintro m ⟨l₁, l₂, heq, hx, hprev⟩
        have hf3 : (validModels ms).find?
            (fun x => strContains (pyLower x) "pro" && !strContains (pyLower x) "exp")
            = some m := by
          rw [heq]
          refine find?_first l₁ l₂ m ?_ ?_
          · obtain ⟨h1, h2⟩ := hx
            simp [h1, h2]
          · intro y hy
            cases hcy : (strContains (pyLower y) "pro" && !strContains (pyLower y) "exp") with
            | false => rfl
            | true =>
              rw [Bool.and_eq_true, Bool.not_eq_true'] at hcy
              exact absurd hcy (hprev y hy)
        rw [get_valid_model_name_ok_eq, hf1, hf2, hf3]
      · intro hnpr
        have hf3 : (validModels ms).find?
            (fun x => strContains (pyLower x) "pro" && !strContains (pyLower x) "exp")
            = none := by
          rw [List.find?_eq_none]
          intro y hy hc
          rw [Bool.and_eq_true, Bool.not_eq_true'] at hc
          exact hnpr y hy hc
        rw [get_valid_model_name_ok_eq, hf1, hf2, hf3]

/-- C1 witness: a listing where the top preference is absent but the second
preference is among the models supporting generateContent. -/
theorem claim_C1_witness :
    get_valid_model_name true
      (.ok [⟨"models/chat-bison", ["generateContent"]⟩,
            ⟨"models/gemini-1.5-pro", ["generateContent", "countTokens"]⟩])
      = some "models/gemini-1.5-pro" :=
  (claim_C1 [⟨"models/chat-bison", ["generateContent"]⟩,
             ⟨"models/gemini-1.5-pro", ["generateContent", "countTokens"]⟩]).1
    "models/gemini-1.5-pro"
    ⟨["models/gemini-1.5-flash"], ["models/gemini-1.0-pro", "models/gemini-pro"],
      by decide, by decide, by decide⟩

/-- C10: `get_valid_model_name` returns `none` exactly when no API key is
configured; with a key it always returns a non-empty model name, and when the
listing raises it returns the default "models/gemini-1.5-flash" instead of
propagating the exception. -/
theorem claim_C10 (listing : Except String (List ModelInfo)) :
    get_valid_model_name false listing = none ∧
    (∃ s, get_valid_model_name true listing = some s ∧ s ≠ "") ∧
    (∀ e, listing = .error e →
       get_valid_model_name true listing = some "models/gemini-1.5-flash") := by
  refine ⟨by simp [get_valid_model_name], ?_, ?_⟩
  · cases listing with
    | error e => exact ⟨"models/gemini-1.5-flash", by simp [get_valid_model_name], by decide⟩
    | ok ms =>
      cases hf1 : preferences.find? (fun pref => (validModels ms).contains pref) with
      | some p =>
        refine ⟨p, by rw [get_valid_model_name_ok_eq, hf1], ?_⟩
        have hp := List.mem_of_find?_eq_some hf1
        simp [preferences] at hp
        rcases hp with rfl | rfl | rfl | rfl <;> decide
      | none =>
        cases hf2 : (validModels ms).find?
            (fun x => strContains (pyLower x) "flash" && !strContains (pyLower x) "exp") with
        | some m =>
          refine ⟨m, by rw [get_valid_model_name_ok_eq, hf1, hf2], ?_⟩
          have hpred := List.find?_some hf2
          intro hm
          subst hm
          revert hpred
          decide
        | none =>
          cases hf3 : (validModels ms).find?
              (fun x => strContains (pyLower x) "pro" && !strContains (pyLower x) "exp") with
          | some m =>
            refine ⟨m, by rw [get_valid_model_name_ok_eq, hf1, hf2, hf3], ?_⟩
            have hpred := List.find?_some hf3
            intro hm
            subst hm
            revert hpred
            decide
          | none =>
            exact ⟨"models/gemini-1.5-flash",
              by rw [get_valid_model_name_ok_eq, hf1, hf2, hf3], by decide⟩
  · intro e he
    subst he
    simp [get_valid_model_name]

/-- C10 witness: no key yields `none`; with a key, a failing listing yields
the default model name. -/
theorem claim_C10_witness :
    get_valid_model_name false (.error "quota") = none ∧
    get_valid_model_name true (.error "quota") = some "models/gemini-1.5-flash" :=
  ⟨(claim_C10 (.error "quota")).1, (claim_C10 (.error "quota")).2.2 "quota" rfl⟩

/-- C3: when the title contains " - ", the stored title/source are the parts
before/after the LAST occurrence (there is no later occurrence than the split
point); otherwise the title is kept unchanged with source "新聞媒體". -/
theorem claim_C3 (title : String) :
    (strContains title " - " = true →
      (processTitle title).1.data ++ (" - ").data ++ (processTitle title).2.data
          = title.data ∧
      ∀ j, (processTitle title).1.data.length < j →
        (" - ").data.isPrefixOf (title.data.drop j) = false) ∧
    (strContains title " - " = false →
      processTitle title = (title, "新聞媒體")) := by
  constructor
  · intro h
    obtain ⟨b, a, hr, hble, hcat, hlast⟩ :=
      rsplitLast_spec (" - ").data title.data (by decide) h
    have hpt : processTitle title = (⟨b⟩, ⟨a⟩) := by
      unfold processTitle
      rw [if_pos h, hr]
    rw [hpt]
    exact ⟨hcat, hlast⟩
  · intro h
    unfold processTitle
    rw [if_neg (by simp [h])]

/-- C3 witness: a title with two occurrences of " - " splits at the last
one. -/
theorem claim_C3_witness :
    (processTitle "高雄房價 - 上漲 - 自由時報").1.data ++ (" - ").data ++
        (processTitle "高雄房價 - 上漲 - 自由時報").2.data
      = ("高雄房價 - 上漲 - 自由時報" : String).data :=
  ((claim_C3 "高雄房價 - 上漲 - 自由時報").1 (by decide)).1

/-- C6: with a non-empty title list, the batch prompt is a single prompt
embedding `titlesText`, and splitting `titlesText` at newlines recovers
exactly the input titles, each prefixed with "- ", in input order — so each
title occurs exactly once in the joined list. -/
theorem claim_C6 (all_titles : List String) (hne : all_titles ≠ [])
    (hnl : ∀ t ∈ all_titles, '\n' ∉ t.data) :
    marketingPrompt all_titles = mpPre ++ titlesText all_titles ++ mpPost ∧
    splitOnNl (titlesText all_titles).data
      = (all_titles.map (fun t => "- " ++ t)).map String.data := by
  refine ⟨rfl, ?_⟩
  unfold titlesText
  apply splitOnNl_joinWith
  · simp [hne]
  · intro s hs
    obtain ⟨t, ht, rfl⟩ := List.mem_map.mp hs
    intro hmem
    have hdata : ("- " ++ t).data = '-' :: ' ' :: t.data := by
      rw [String.data_append]
      rfl
    rw [hdata, List.mem_cons, List.mem_cons] at hmem
    rcases hmem with h | h | h
    · exact absurd h (by decide)
    · exact absurd h (by decide)
    · exact hnl t ht h

/-- C6 witness: two concrete titles are recovered, in order and each once,
from the joined batch text. -/
theorem claim_C6_witness :
    splitOnNl (titlesText ["北市房價走揚", "高雄新案開紅盤"]).data
      = ((["北市房價走揚", "高雄新案開紅盤"] : List String).map
          (fun t => "- " ++ t)).map String.data :=
  (claim_C6 ["北市房價走揚", "高雄新案開紅盤"] (by decide)
    (by decide)).2

/-- C7: every element of `get_six_capital_news` is a flat record with exactly
the keys "title", "link", "source", "date" in that order (all values are
strings by the type `List (String × String)`). -/
theorem claim_C7 (entries : List Entry) (item : List (String × String))
    (hmem : item ∈ get_six_capital_news entries) :
    item.map Prod.fst = ["title", "link", "source", "date"] := by
  obtain ⟨e, _, rfl⟩ := List.mem_map.mp hmem
  simp [processEntry]

/-- C7 witness: the item built from one concrete feed entry has exactly the
four keys. -/
theorem claim_C7_witness :
    (processEntry ⟨"北市新案熱銷 - 經濟日報", "https://example.com/a", none⟩).map Prod.fst
      = ["title", "link", "source", "date"] :=
  claim_C7 [⟨"北市新案熱銷 - 經濟日報", "https://example.com/a", none⟩]
    (processEntry ⟨"北市新案熱銷 - 經濟日報", "https://example.com/a", none⟩)
    (by simp [get_six_capital_news])

/-- C8: the result has `min 10 (number of entries)` items; item `i` is
derived from entry `i` (feed order) for `i < 10`, and entries beyond the
tenth produce nothing. -/
theorem claim_C8 (entries : List Entry) :
    (get_six_capital_news entries).length = min 10 entries.length ∧
    (∀ i : Nat, i < 10 →
      (get_six_capital_news entries)[i]? = entries[i]?.map processEntry) ∧
    (∀ i : Nat, 10 ≤ i → (get_six_capital_news entries)[i]? = none) := by
  refine ⟨?_, ?_, ?_⟩
  · simp [get_six_capital_news]
  · intro i hi
    simp [get_six_capital_news, List.getElem?_take, hi]
  · intro i hi
    have hlt : ¬ i < 10 := by omega
    simp [get_six_capital_news, List.getElem?_take, hlt]

/-- C8 witness: with a single-entry feed the result has one item and index 12
is empty. -/
theorem claim_C8_witness :
    (get_six_capital_news [⟨"t", "https://example.com", none⟩]).length
        = min 10 ([⟨"t", "https://example.com", none⟩] : List Entry).length ∧
    (get_six_capital_news [⟨"t", "https://example.com", none⟩])[12]? = none :=
  ⟨(claim_C8 [⟨"t", "https://example.com", none⟩]).1,
   (claim_C8 [⟨"t", "https://example.com", none⟩]).2.2 12 (by omega)⟩

end App
